import Mathlib

/-!
Verification of the eve-esi-client core against its specification.

Shallow embedding conventions:
* wall-clock instants and durations at second resolution are `Int`
  (Go `time.Time` / `time.Duration`); retry backoffs are in milliseconds (`Nat`);
* Go `int` is modelled as `Int` (no overflow is relevant at these magnitudes);
* fallible Go functions return `Except`;
* the external key-value store is modelled per-field (rate-limit state) or as a
  partial map keyed by the serialized cache key (cache store).
-/

/-! ## Rate-limit state (pkg ratelimit, src/unnamed/part_004) -/

/-- Constant `ErrorThresholdCritical` (part_004 line 21). -/
def ErrorThresholdCritical : Int := 5

/-- Constant `ErrorThresholdWarning` (part_004 line 25). -/
def ErrorThresholdWarning : Int := 20

/-- Constant `ErrorThresholdHealthy` (part_004 line 29). -/
def ErrorThresholdHealthy : Int := 50

/-- Structure `RateLimitState` (part_004 lines 34-50); times are unix seconds. -/
structure RateLimitState where
  errorsRemaining : Int
  resetAt : Int
  lastUpdate : Int
  isHealthy : Bool
deriving DecidableEq

/-- Predicate `RateLimitState.NeedsCriticalBlock` (part_004 lines 59-61). -/
def RateLimitState.NeedsCriticalBlock (s : RateLimitState) : Bool :=
  s.errorsRemaining < ErrorThresholdCritical

/-- Predicate `RateLimitState.NeedsThrottling` (part_004 lines 64-66). -/
def RateLimitState.NeedsThrottling (s : RateLimitState) : Bool :=
  s.errorsRemaining < ErrorThresholdWarning && !s.NeedsCriticalBlock

/-- A state whose `IsHealthy` field has been set by `UpdateHealth`
(part_004 lines 79-81), as `GetState` and `UpdateFromHeaders` construct it. -/
def mkStateWithHealth (er resetAt lastUpdate : Int) : RateLimitState :=
  { errorsRemaining := er
    resetAt := resetAt
    lastUpdate := lastUpdate
    isHealthy := decide (er ≥ ErrorThresholdHealthy) }

/-! ## Sleeping and cancellation

Go distinguishes `time.Sleep(d)`, which always runs to completion and never
consults the caller's context, from a `select` on `ctx.Done()` and
`time.After(d)`, which is interrupted when cancellation fires first.
Both are modelled as functions of "does the cancellation signal fire during
the wait". -/

inductive WaitOutcome
  | completed
  | interrupted
deriving DecidableEq

/-- Go `time.Sleep`: completes regardless of the cancellation signal
(`Tracker.ShouldAllowRequest`, src/unnamed/part_005 line 197 uses this). -/
def timeSleep (_cancelFires : Bool) : WaitOutcome := .completed

/-- A context-aware wait: `select { case <-ctx.Done(): ... case <-time.After(d): }`
(as in `retryWithBackoff`, src/pkg/client/retry.go lines 140-149). -/
def ctxAwareWait (cancelFires : Bool) : WaitOutcome :=
  if cancelFires then .interrupted else .completed

/-! ## The admit decision (Tracker.ShouldAllowRequest, part_005 lines 171-202) -/

inductive AdmitOutcome
  | blocked
  | allowed (throttled : Bool)
  | cancelledErr
deriving DecidableEq

/-- Function `Tracker.ShouldAllowRequest` (part_005 lines 171-202), given the state its
`GetState` call returned.  `cancelDuringSleep` says whether the caller's
cancellation fires while the throttle sleep is in progress; the source performs
that sleep with `time.Sleep(1 * time.Second)` (line 197). -/
def shouldAllowRequest (s : RateLimitState) (cancelDuringSleep : Bool) : AdmitOutcome :=
  if s.NeedsCriticalBlock then .blocked
  else if s.NeedsThrottling then
    match timeSleep cancelDuringSleep with
    | .completed => .allowed true
    | .interrupted => .cancelledErr
  else .allowed false

/-! ## GetState (Tracker.GetState, part_005 lines 51-94)

The three Redis values are modelled per-key.  A stored integer field either
parses (`ival`) or does not (`junk`: go-redis `.Int()` then returns a non-Nil
error, which `GetState` surfaces).  The `last_update` value is a string: empty
(skips the JSON parse, leaving the zero time), valid JSON time, or malformed
JSON (parse error surfaced).  Transport-level store errors are outside the
model; `redis.Nil` (key absent) is `none`. -/

inductive RVal
  | ival (v : Int)
  | junk
deriving DecidableEq

inductive LUVal
  | emptyStr
  | validTime (t : Int)
  | badJson
deriving DecidableEq

structure RLStore where
  errorsRemaining : Option RVal
  resetTimestamp : Option RVal
  lastUpdate : Option LUVal
deriving DecidableEq

inductive GetStateErr
  | getErrorsRemaining
  | getResetTimestamp
  | parseLastUpdate
deriving DecidableEq

/-- The synthesized healthy default (part_005 lines 69-77). -/
def defaultHealthyState (now : Int) : RateLimitState :=
  { errorsRemaining := 100
    resetAt := now + 60
    lastUpdate := now
    isHealthy := true }

/-- Integer value of a fetched field, `0` when the key is absent
(go-redis returns the zero value together with `redis.Nil`). -/
def erValue : Option RVal → Int
  | some (.ival v) => v
  | _ => 0

/-- Time value of a fetched `last_update` string. -/
def luValue : LUVal → Int
  | .emptyStr => 0
  | .validTime t => t
  | .badJson => 0

/-- Function `Tracker.GetState` (part_005 lines 51-94).  Note that the
`if err == redis.Nil` test on line 69 inspects the error of the *last* fetch,
the one for `last_update`, so the default is synthesized exactly when that key
is absent. -/
def getState (now : Int) (st : RLStore) : Except GetStateErr RateLimitState :=
  match st.errorsRemaining with
  | some .junk => .error .getErrorsRemaining
  | _ =>
    match st.resetTimestamp with
    | some .junk => .error .getResetTimestamp
    | _ =>
      match st.lastUpdate with
      | none => .ok (defaultHealthyState now)
      | some .badJson => .error .parseLastUpdate
      | some lu =>
        .ok (mkStateWithHealth (erValue st.errorsRemaining)
              (erValue st.resetTimestamp) (luValue lu))

/-! ## UpdateFromHeaders (Tracker.UpdateFromHeaders, part_005 lines 97-166) -/

/-- One step of accumulating decimal digits; fails on a non-digit. -/
def parseDigitsAux : List Char → Nat → Option Nat
  | [], acc => some acc
  | c :: cs, acc =>
    if c.isDigit then parseDigitsAux cs (acc * 10 + (c.toNat - 48)) else none

/-- All-digit parse of a nonempty character list. -/
def parseDigits : List Char → Option Nat
  | [] => none
  | cs => parseDigitsAux cs 0

/-- Go `strconv.Atoi`: optional sign followed by one or more decimal digits;
anything else is an error (`none`).  (The int64 range check is immaterial at
header magnitudes and is not modelled.) -/
def goAtoi (s : String) : Option Int :=
  match s.toList with
  | '+' :: rest => (parseDigits rest).map Int.ofNat
  | '-' :: rest => (parseDigits rest).map (fun n => -(n : Int))
  | cs => (parseDigits cs).map Int.ofNat

inductive UpdateErr
  | parseRemain
  | missingReset
  | parseReset
deriving DecidableEq

/-- The three fields written by the single `pipe.Exec` round-trip
(part_005 lines 131-141): values for `esi:rate_limit:errors_remaining`,
`esi:rate_limit:reset_timestamp` and `esi:rate_limit:last_update`. -/
structure WriteBatch where
  errorsRemaining : Int
  resetTimestamp : Int
  lastUpdate : Int
deriving DecidableEq

inductive UpdateOutcome
  | noop
  | wrote (b : WriteBatch)
deriving DecidableEq

/-- Function `Tracker.UpdateFromHeaders` (part_005 lines 97-166).  `remainStr` and
`resetStr` are the values of `X-ESI-Error-Limit-Remain` and
`X-ESI-Error-Limit-Reset` as `http.Header.Get` returns them (absent = ""). -/
def updateFromHeaders (now : Int) (remainStr resetStr : String) :
    Except UpdateErr UpdateOutcome :=
  if remainStr = "" then .ok .noop
  else
    match goAtoi remainStr with
    | none => .error .parseRemain
    | some remain =>
      if resetStr = "" then .error .missingReset
      else
        match goAtoi resetStr with
        | none => .error .parseReset
        | some resetSeconds =>
          .ok (.wrote
            { errorsRemaining := remain
              resetTimestamp := now + resetSeconds
              lastUpdate := now })

/-! ## Theorems: C1 -/

/-- C1: for every rate-limit state `s` (and either cancellation behaviour),
admit blocks iff `errorsRemaining < 5`; allows after the 1s throttle iff
`5 ≤ errorsRemaining < 20`; allows immediately iff `errorsRemaining ≥ 20`.
In particular exactly 5 allows with throttle and exactly 20 allows without. -/
theorem shouldAllow_threshold_bands (s : RateLimitState) (c : Bool) :
    (shouldAllowRequest s c = .blocked ↔ s.errorsRemaining < 5)
    ∧ (shouldAllowRequest s c = .allowed true ↔
        5 ≤ s.errorsRemaining ∧ s.errorsRemaining < 20)
    ∧ (shouldAllowRequest s c = .allowed false ↔ 20 ≤ s.errorsRemaining)
    ∧ (s.errorsRemaining = 5 → shouldAllowRequest s c = .allowed true)
    ∧ (s.errorsRemaining = 20 → shouldAllowRequest s c = .allowed false) := by
  unfold shouldAllowRequest RateLimitState.NeedsThrottling
    RateLimitState.NeedsCriticalBlock timeSleep
  unfold ErrorThresholdCritical ErrorThresholdWarning
  by_cases h5 : s.errorsRemaining < 5 <;>
    by_cases h20 : s.errorsRemaining < 20 <;>
      simp [h5, h20] <;> omega

/-- C1 witness: concrete states in each band. -/
theorem shouldAllow_threshold_bands_witness :
    shouldAllowRequest ⟨5, 0, 0, false⟩ false = .allowed true
    ∧ shouldAllowRequest ⟨20, 0, 0, false⟩ false = .allowed false
    ∧ shouldAllowRequest ⟨4, 0, 0, false⟩ false = .blocked :=
  ⟨(shouldAllow_threshold_bands ⟨5, 0, 0, false⟩ false).2.2.2.1 rfl,
   (shouldAllow_threshold_bands ⟨20, 0, 0, false⟩ false).2.2.2.2 rfl,
   (shouldAllow_threshold_bands ⟨4, 0, 0, false⟩ false).1.mpr (by decide)⟩

/-! ## Theorems: C5 (GetState default synthesis) -/

/-- A store whose two integer fields parse and whose `last_update` is not
malformed JSON (`GetState` errors out otherwise). -/
def RLStore.wellFormed (st : RLStore) : Prop :=
  st.errorsRemaining ≠ some .junk ∧ st.resetTimestamp ≠ some .junk
    ∧ st.lastUpdate ≠ some .badJson

instance (st : RLStore) : Decidable st.wellFormed := by
  unfold RLStore.wellFormed; infer_instance

/-- Store with `errors_remaining` present (42) but `reset_timestamp` and
`last_update` absent. -/
def c5Store : RLStore :=
  { errorsRemaining := some (.ival 42), resetTimestamp := none, lastUpdate := none }

/-- C5 counterexample: with `errors_remaining = 42` present in the store but
`last_update` absent, `GetState` returns the synthesized healthy default
(`errorsRemaining = 100`), not the stored value 42 — refuting "whenever at
least one field is present, the stored values are returned". -/
theorem getState_partial_presence_counterexample :
    c5Store.errorsRemaining = some (.ival 42)
    ∧ getState 0 c5Store = .ok (defaultHealthyState 0)
    ∧ (defaultHealthyState 0).errorsRemaining = 100
    ∧ getState 0 c5Store ≠ .ok (mkStateWithHealth 42 0 0) := by
  refine ⟨rfl, rfl, rfl, fun h => ?_⟩
  have h2 : defaultHealthyState 0 = mkStateWithHealth 42 0 0 := Except.ok.inj h
  exact absurd h2 (by decide)

/-- C5 amended: for well-formed stores, `GetState` returns the synthesized
healthy default (budget 100, reset now+60s) exactly when the `last_update`
field is absent — regardless of the other two fields — and whenever
`last_update` is present the stored values are returned with absent fields
taking zero values. -/
theorem getState_default_iff_lastUpdate_absent (now : Int) (st : RLStore)
    (h : st.wellFormed) :
    (st.lastUpdate = none → getState now st = .ok (defaultHealthyState now))
    ∧ (∀ lu, st.lastUpdate = some lu →
        getState now st =
          .ok (mkStateWithHealth (erValue st.errorsRemaining)
                (erValue st.resetTimestamp) (luValue lu))) := by
  obtain ⟨h1, h2, h3⟩ := h
  constructor
  · intro habs
    unfold getState
    match her : st.errorsRemaining with
    | some .junk => exact absurd her h1
    | none | some (.ival _) =>
      match hrt : st.resetTimestamp with
      | some .junk => exact absurd hrt h2
      | none | some (.ival _) => rw [habs]
  · intro lu hlu
    unfold getState
    match her : st.errorsRemaining with
    | some .junk => exact absurd her h1
    | none | some (.ival _) =>
      match hrt : st.resetTimestamp with
      | some .junk => exact absurd hrt h2
      | none | some (.ival _) =>
        match lu, hlu with
        | .badJson, hlu => exact absurd hlu h3
        | .emptyStr, hlu => rw [hlu]
        | .validTime t, hlu => rw [hlu]

/-- C5 witness: the amended theorem evaluated on a store holding only
`last_update` (valid, t = 7): stored path with zero-valued integer fields. -/
theorem getState_default_iff_lastUpdate_absent_witness :
    getState 0 { errorsRemaining := none, resetTimestamp := none,
                 lastUpdate := some (.validTime 7) } =
      .ok (mkStateWithHealth 0 0 7) :=
  (getState_default_iff_lastUpdate_absent 0
    { errorsRemaining := none, resetTimestamp := none,
      lastUpdate := some (.validTime 7) } (by decide)).2 (.validTime 7) rfl

/-! ## Theorems: C6 (throttle sleep vs cancellation) -/

/-- A state in the warning band (throttling applies). -/
def c6State : RateLimitState :=
  { errorsRemaining := 10, resetAt := 0, lastUpdate := 0, isHealthy := false }

/-- C6 counterexample: with `errorsRemaining = 10` (warning band) and the
caller's cancellation firing during the throttle sleep, `ShouldAllowRequest`
still completes the sleep and returns allow — it does not surface a cancelled
error, refuting the claim that the throttle wait honors cancellation. -/
theorem throttle_ignores_cancellation_counterexample :
    c6State.NeedsThrottling = true
    ∧ shouldAllowRequest c6State true = .allowed true
    ∧ shouldAllowRequest c6State true ≠ .cancelledErr := by decide

/-- C6 amended: the throttle sleep is an unconditional `time.Sleep(1s)`; the
admit outcome is the same whether or not cancellation fires during the sleep,
and is never a cancelled error. -/
theorem shouldAllow_independent_of_cancellation (s : RateLimitState) (c : Bool) :
    shouldAllowRequest s c = shouldAllowRequest s false
    ∧ shouldAllowRequest s c ≠ .cancelledErr := by
  unfold shouldAllowRequest timeSleep
  constructor
  · rfl
  · by_cases h1 : s.NeedsCriticalBlock <;> by_cases h2 : s.NeedsThrottling <;>
      simp [h1, h2]

/-- C6 amended witness: the amended theorem at the warning-band state with
cancellation firing. -/
theorem shouldAllow_independent_of_cancellation_witness :
    shouldAllowRequest c6State true = shouldAllowRequest c6State false
    ∧ shouldAllowRequest c6State true ≠ .cancelledErr :=
  shouldAllow_independent_of_cancellation c6State true

/-! ## Theorems: C7 (UpdateFromHeaders asymmetry) -/

/-- C7: header-handling asymmetry of `UpdateFromHeaders`: absent
budget-remaining header is a no-op success; present budget-remaining with
absent reset header is an error; present-but-unparseable budget-remaining is
a hard error; when both parse, all three state fields are written in the one
`pipe.Exec` batch (remain, now + resetSeconds, now). -/
theorem updateFromHeaders_asymmetry (now : Int) (remainStr resetStr : String) :
    (remainStr = "" → updateFromHeaders now remainStr resetStr = .ok .noop)
    ∧ (remainStr ≠ "" → goAtoi remainStr = none →
        updateFromHeaders now remainStr resetStr = .error .parseRemain)
    ∧ (∀ r, goAtoi remainStr = some r → resetStr = "" →
        updateFromHeaders now remainStr resetStr = .error .missingReset)
    ∧ (∀ r rs, goAtoi remainStr = some r → goAtoi resetStr = some rs →
        updateFromHeaders now remainStr resetStr =
          .ok (.wrote { errorsRemaining := r
                        resetTimestamp := now + rs
                        lastUpdate := now })) := by
  have hempty : goAtoi "" = none := rfl
  refine ⟨fun h => by simp [updateFromHeaders, h], fun hne hpar => ?_, ?_, ?_⟩
  · simp [updateFromHeaders, hne, hpar]
  · intro r hr hres
    have hne : ¬ remainStr = "" := fun h => by rw [h, hempty] at hr; cases hr
    simp [updateFromHeaders, hne, hr, hres]
  · intro r rs hr hrs
    have hne : ¬ remainStr = "" := fun h => by rw [h, hempty] at hr; cases hr
    have hne2 : ¬ resetStr = "" := fun h => by rw [h, hempty] at hrs; cases hrs
    simp [updateFromHeaders, hne, hr, hne2, hrs]

/-- C7 witness: the four branches at concrete headers
(`""`, `"abc"`, `"50"` with missing reset, `"50"`/`"60"`). -/
theorem updateFromHeaders_asymmetry_witness :
    updateFromHeaders 0 "" "60" = .ok .noop
    ∧ updateFromHeaders 0 "abc" "60" = .error .parseRemain
    ∧ updateFromHeaders 0 "50" "" = .error .missingReset
    ∧ updateFromHeaders 0 "50" "60" =
        .ok (.wrote { errorsRemaining := 50, resetTimestamp := 60, lastUpdate := 0 }) :=
  ⟨(updateFromHeaders_asymmetry 0 "" "60").1 rfl,
   (updateFromHeaders_asymmetry 0 "abc" "60").2.1 (by decide) (by decide),
   (updateFromHeaders_asymmetry 0 "50" "").2.2.1 50 (by decide) rfl,
   (updateFromHeaders_asymmetry 0 "50" "60").2.2.2 50 60 (by decide) (by decide)⟩

/-! ## Cache key (CacheKey / CacheKey.String, cache key source concatenated at
the end of src/pkg/client/client.go, lines 384-454) -/

/-- Structure `CacheKey` (client.go related doc lines 394-406).  The Go maps
`PathParams : map[string]string` and `QueryParams : url.Values` are modelled as
association lists; a faithful image of a Go map has pairwise distinct keys
(`Nodup` on the mapped keys), which theorems assume where it matters. -/
structure CacheKey where
  endpoint : String
  pathParams : List (String × String)
  queryParams : List (String × List String)
  characterID : Int
deriving DecidableEq

/-- Go `strings.Trim(s, "/")`: remove all leading and trailing slash runes. -/
def trimSlashes (s : String) : String :=
  ⟨((s.toList.dropWhile (· == '/')).reverse.dropWhile (· == '/')).reverse⟩

/-- Go map read `m[key]` on an association list (zero value when absent). -/
def goMapGet (ps : List (String × String)) (k : String) : String :=
  (ps.lookup k).getD ""

/-- Go `url.Values.Get(key)`: first value of the slice, "" when absent/empty. -/
def goValuesGet (qs : List (String × List String)) (k : String) : String :=
  (((qs.lookup k).getD []).head?).getD ""

/-- Go `sort.Strings` (ascending lexicographic). -/
def sortStrings (l : List String) : List String :=
  l.insertionSort (· ≤ ·)

/-- Function `CacheKey.String` (client.go related doc lines 413-454): joins `esi`, the
slash-trimmed endpoint, `name=value` path parameters in sorted key order,
`name=value` query parameters (first value) in sorted key order, and
`char=<id>` when the character ID is positive, with `:`. -/
def cacheKeyString (k : CacheKey) : String :=
  let parts0 : List String := ["esi"]
  let ep := trimSlashes k.endpoint
  let parts1 := if ep = "" then parts0 else parts0 ++ [ep]
  let parts2 :=
    if k.pathParams.isEmpty then parts1
    else parts1 ++ (sortStrings (k.pathParams.map Prod.fst)).map
      (fun key => key ++ "=" ++ goMapGet k.pathParams key)
  let parts3 :=
    if k.queryParams.isEmpty then parts2
    else parts2 ++ (sortStrings (k.queryParams.map Prod.fst)).map
      (fun key => key ++ "=" ++ goValuesGet k.queryParams key)
  let parts4 :=
    if 0 < k.characterID then parts3 ++ ["char=" ++ toString k.characterID]
    else parts3
  String.intercalate ":" parts4

/-- Lookup (`List.lookup`) is invariant under permutation when the keys are distinct
(the situation of a Go map's entry set). -/
theorem lookup_eq_of_perm {α β : Type} [BEq α] [LawfulBEq α]
    {l1 l2 : List (α × β)} (h : l1.Perm l2)
    (nd : (l1.map Prod.fst).Nodup) (k : α) :
    l1.lookup k = l2.lookup k := by
  induction h with
  | nil => rfl
  | cons x h ih =>
    simp only [List.map_cons, List.nodup_cons] at nd
    by_cases hk : k == x.1
    · rcases x with ⟨a, b⟩
      simp [List.lookup, hk]
    · rcases x with ⟨a, b⟩
      simp only [List.lookup, hk]
      exact ih nd.2
  | swap x y l =>
    rcases x with ⟨a, b⟩
    rcases y with ⟨c, d⟩
    simp only [List.map_cons, List.nodup_cons, List.mem_cons] at nd
    have hac : ¬ (c = a) := fun h => nd.1 (Or.inl h)
    by_cases h1 : k == c
    · have : ¬ (k == a) := by
        intro h2
        exact hac ((eq_of_beq h1).symm.trans (eq_of_beq h2))
      simp [List.lookup, h1, this]
    · by_cases h2 : k == a
      · simp [List.lookup, h1, h2]
      · simp [List.lookup, h1, h2]
  | trans h1 h2 ih1 ih2 =>
    have nd2 : (List.map Prod.fst _).Nodup := ((h1.map Prod.fst).nodup_iff).mp nd
    exact (ih1 nd).trans (ih2 nd2)

/-- Permutations have equal `isEmpty`. -/
theorem isEmpty_eq_of_perm {α : Type} {l1 l2 : List α} (h : l1.Perm l2) :
    l1.isEmpty = l2.isEmpty := by
  cases l1 <;> cases l2 <;> first
    | rfl
    | exact absurd h.length_eq (by simp)

/-- Two distinct cache keys whose serializations coincide: endpoints `"a"` and
`"/a/"` both serialize to `esi:a` after slash trimming. -/
def c8KeyA : CacheKey :=
  { endpoint := "a", pathParams := [], queryParams := [], characterID := 0 }

def c8KeyB : CacheKey :=
  { endpoint := "/a/", pathParams := [], queryParams := [], characterID := 0 }

/-- C8 counterexample: serialization does not separate keys — the distinct
keys `c8KeyA` and `c8KeyB` have byte-identical serializations, refuting
"two cache keys are equal if and only if their serialized strings are
byte-identical". -/
theorem cacheKeyString_not_injective :
    c8KeyA ≠ c8KeyB ∧ cacheKeyString c8KeyA = cacheKeyString c8KeyB :=
  ⟨by decide, rfl⟩

/-- C8 amended: serialization is a pure, deterministic function of the key
tuple — for keys whose parameter maps hold the same entries (possibly in a
different insertion order, with the distinct keys a Go map guarantees) the
serializations are byte-equal, and equal keys always serialize equally — but
it does not separate keys: distinct keys can share a serialization
(`cacheKeyString_not_injective`-style collisions). -/
theorem cacheKeyString_insertion_order_independent (k1 k2 : CacheKey)
    (hep : k1.endpoint = k2.endpoint) (hc : k1.characterID = k2.characterID)
    (hpp : k1.pathParams.Perm k2.pathParams)
    (hppnd : (k1.pathParams.map Prod.fst).Nodup)
    (hqp : k1.queryParams.Perm k2.queryParams)
    (hqpnd : (k1.queryParams.map Prod.fst).Nodup) :
    cacheKeyString k1 = cacheKeyString k2 := by
  have hsortp : sortStrings (k1.pathParams.map Prod.fst)
      = sortStrings (k2.pathParams.map Prod.fst) :=
    List.eq_of_perm_of_sorted
      ((List.perm_insertionSort _ _).trans
        ((hpp.map Prod.fst).trans (List.perm_insertionSort _ _).symm))
      (List.sorted_insertionSort _ _) (List.sorted_insertionSort _ _)
  have hsortq : sortStrings (k1.queryParams.map Prod.fst)
      = sortStrings (k2.queryParams.map Prod.fst) :=
    List.eq_of_perm_of_sorted
      ((List.perm_insertionSort _ _).trans
        ((hqp.map Prod.fst).trans (List.perm_insertionSort _ _).symm))
      (List.sorted_insertionSort _ _) (List.sorted_insertionSort _ _)
  have hfp : (fun key => key ++ "=" ++ goMapGet k1.pathParams key)
      = (fun key => key ++ "=" ++ goMapGet k2.pathParams key) :=
    funext fun key => by
      unfold goMapGet
      rw [lookup_eq_of_perm hpp hppnd]
  have hfq : (fun key => key ++ "=" ++ goValuesGet k1.queryParams key)
      = (fun key => key ++ "=" ++ goValuesGet k2.queryParams key) :=
    funext fun key => by
      unfold goValuesGet
      rw [lookup_eq_of_perm hqp hqpnd]
  have hpe : k1.pathParams.isEmpty = k2.pathParams.isEmpty := isEmpty_eq_of_perm hpp
  have hqe : k1.queryParams.isEmpty = k2.queryParams.isEmpty := isEmpty_eq_of_perm hqp
  unfold cacheKeyString
  rw [hep, hc, hsortp, hsortq, hfp, hfq, hpe, hqe]

/-- C8 witness: the same logical key with both parameter maps listed in two
different insertion orders serializes identically. -/
theorem cacheKeyString_insertion_order_independent_witness :
    cacheKeyString
      { endpoint := "/v1/x/", pathParams := [("b", "2"), ("a", "1")],
        queryParams := [("q", ["z"]), ("p", ["y", "w"])], characterID := 5 }
    = cacheKeyString
      { endpoint := "/v1/x/", pathParams := [("a", "1"), ("b", "2")],
        queryParams := [("p", ["y", "w"]), ("q", ["z"])], characterID := 5 } :=
  cacheKeyString_insertion_order_independent _ _ rfl rfl
    (List.Perm.swap ("a", "1") ("b", "2") [])
    (by decide)
    (List.Perm.swap ("p", ["y", "w"]) ("q", ["z"]) [])
    (by decide)

/-! ## Cache entry (pkg cache, entry source concatenated in
src/tests/integration/client_test.go; behaviour pinned by
src/pkg/cache/entry_test.go) -/

/-- Structure `CacheEntry`: body bytes, validators, freshness metadata; times are unix
seconds.  `lastModified = 0` models Go's zero `time.Time`. -/
structure CacheEntry where
  data : String
  etag : String
  expires : Int
  lastModified : Int
  statusCode : Nat
  headers : List (String × String)
  cachedAt : Int
deriving DecidableEq

/-- Predicate `CacheEntry.IsExpired`: `time.Now().After(e.Expires)`. -/
def CacheEntry.isExpired (e : CacheEntry) (now : Int) : Bool :=
  now > e.expires

/-- Function `CacheEntry.TTL`: `time.Until(e.Expires)`, clamped at 0 when negative. -/
def CacheEntry.ttl (e : CacheEntry) (now : Int) : Int :=
  if e.expires - now < 0 then 0 else e.expires - now

/-! ## Cache store (Manager, src/pkg/cache/manager.go)

The Redis value at a serialized cache key is a JSON blob: it either decodes
back to the entry that was marshalled (`enc`) or fails `json.Unmarshal`
(`corrupt`).  Redis's native TTL expiry is not modelled separately: `Get`
itself rejects (and deletes) stale entries, which is the behaviour under
verification.  Transport-level store errors are outside the model. -/

inductive StoredBytes
  | enc (e : CacheEntry)
  | corrupt
deriving DecidableEq

def CStore := String → Option StoredBytes

/-- Point update of the store (Redis `SET`/`DEL` at one key). -/
def CStore.write (st : CStore) (k : String) (v : Option StoredBytes) : CStore :=
  fun k2 => if k2 = k then v else st k2

inductive CacheErr
  | cacheMiss
  | invalidEntry
  | nilEntry
deriving DecidableEq

/-- Function `Manager.Get` (manager.go lines 38-72): read the bytes at
`key.String()`; absent → cache-miss; undecodable → invalid-entry; decoded but
expired → delete the record and cache-miss; otherwise the entry.  Returns the
(possibly updated) store alongside the result. -/
def managerGet (now : Int) (st : CStore) (key : CacheKey) :
    CStore × Except CacheErr CacheEntry :=
  match st (cacheKeyString key) with
  | none => (st, .error .cacheMiss)
  | some .corrupt => (st, .error .invalidEntry)
  | some (.enc e) =>
    if e.isExpired now then
      (st.write (cacheKeyString key) none, .error .cacheMiss)
    else (st, .ok e)

/-- Function `Manager.Set` (manager.go lines 76-107): nil entry is an error; entries
whose TTL is ≤ 0 are not written (success, store untouched); otherwise the
marshalled entry is written with native TTL. -/
def managerSet (now : Int) (st : CStore) (key : CacheKey) (entry : Option CacheEntry) :
    CStore × Except CacheErr Unit :=
  match entry with
  | none => (st, .error .nilEntry)
  | some e =>
    if e.ttl now ≤ 0 then (st, .ok ())
    else (st.write (cacheKeyString key) (some (.enc e)), .ok ())

/-! ## Theorems: C3 (the store never serves or persists a dead entry) -/

/-- C3: (a) `Get` of an entry whose expiration has passed deletes the record
and returns cache-miss; (b) a decode failure yields the distinct
invalid-entry error; (c) `Set` of an entry with TTL ≤ 0 returns success
without writing, so at a previously-empty key a subsequent `Get` returns
cache-miss. -/
theorem cacheStore_never_serves_dead (now : Int) (st : CStore) (key : CacheKey)
    (e : CacheEntry) :
    (st (cacheKeyString key) = some (.enc e) → e.expires < now →
      managerGet now st key =
        (st.write (cacheKeyString key) none, .error .cacheMiss)
      ∧ (managerGet now st key).1 (cacheKeyString key) = none)
    ∧ (st (cacheKeyString key) = some .corrupt →
        managerGet now st key = (st, .error .invalidEntry)
        ∧ CacheErr.invalidEntry ≠ CacheErr.cacheMiss)
    ∧ (e.ttl now ≤ 0 →
        managerSet now st key (some e) = (st, .ok ())
        ∧ (st (cacheKeyString key) = none →
            (managerGet now (managerSet now st key (some e)).1 key).2 =
              .error .cacheMiss)) := by
  refine ⟨fun hin hexp => ?_, fun hin => ?_, fun httl => ?_⟩
  · have hexp2 : e.isExpired now = true := by
      unfold CacheEntry.isExpired
      exact decide_eq_true (by omega)
    constructor
    · unfold managerGet
      rw [hin]
      simp [hexp2]
    · unfold managerGet
      rw [hin]
      simp [hexp2, CStore.write]
  · constructor
    · unfold managerGet
      rw [hin]
    · intro h
      cases h
  · have hset : managerSet now st key (some e) = (st, .ok ()) := by
      unfold managerSet
      simp [httl]
    refine ⟨hset, fun habs => ?_⟩
    have hfst : (managerSet now st key (some e)).1 = st := by rw [hset]
    rw [hfst]
    unfold managerGet
    rw [habs]

/-- C3 witness: a dead entry (expired at `now = 10`) in the store is deleted
on `Get`; a corrupt record yields invalid-entry; a dead `Set` at an empty key
leaves a subsequent `Get` a miss. -/
def c3DeadEntry : CacheEntry :=
  { data := "x", etag := "", expires := 3, lastModified := 0,
    statusCode := 200, headers := [], cachedAt := 1 }

def c3Key : CacheKey :=
  { endpoint := "a", pathParams := [], queryParams := [], characterID := 0 }

def c3StoreDead : CStore :=
  fun k => if k = "esi:a" then some (.enc c3DeadEntry) else none

def c3StoreCorrupt : CStore :=
  fun k => if k = "esi:a" then some .corrupt else none

def c3StoreEmpty : CStore := fun _ => none

theorem cacheStore_never_serves_dead_witness :
    ((managerGet 10 c3StoreDead c3Key).2 = .error .cacheMiss
      ∧ (managerGet 10 c3StoreDead c3Key).1 (cacheKeyString c3Key) = none)
    ∧ (managerGet 10 c3StoreCorrupt c3Key).2 = .error .invalidEntry
    ∧ ((managerSet 10 c3StoreEmpty c3Key (some c3DeadEntry)).2 = .ok ()
      ∧ (managerGet 10 (managerSet 10 c3StoreEmpty c3Key (some c3DeadEntry)).1 c3Key).2 =
          .error .cacheMiss) := by
  have h1 := (cacheStore_never_serves_dead 10 c3StoreDead c3Key c3DeadEntry).1 rfl
    (by decide)
  have h2 := (cacheStore_never_serves_dead 10 c3StoreCorrupt c3Key c3DeadEntry).2.1 rfl
  have h3 := (cacheStore_never_serves_dead 10 c3StoreEmpty c3Key c3DeadEntry).2.2
    (by decide)
  refine ⟨⟨?_, h1.2⟩, ?_, ?_, ?_⟩
  · rw [h1.1]
  · rw [h2.1]
  · rw [h3.1]
  · exact h3.2 rfl

/-! ## Error classification (src/pkg/client/client.go lines 55-70, 332-352;
src/pkg/client/errors.go lines 40-58) -/

/-- Enumeration `ErrorClass` (client.go lines 55-70); `unclassified` is the empty string
default. -/
inductive ErrorClass
  | client
  | server
  | rateLimit
  | network
  | unclassified
deriving DecidableEq

/-- Function `shouldRetry` (errors.go lines 40-58). -/
def shouldRetry : ErrorClass → Bool
  | .client => false
  | .server => true
  | .rateLimit => true
  | .network => true
  | .unclassified => false

/-- Function `Client.classifyError` (client.go lines 332-352): a transport error is
network; else by status 520 / [400,500) / [500,∞); otherwise unclassified.
`status = none` models a nil response (unreachable when `transportErr` is
false in the pipeline). -/
def classifyError (status : Option Nat) (transportErr : Bool) : ErrorClass :=
  if transportErr then .network
  else
    match status with
    | none => .unclassified
    | some s =>
      if s = 520 then .rateLimit
      else if 400 ≤ s ∧ s < 500 then .client
      else if 500 ≤ s then .server
      else .unclassified

/-! ## Retry profiles (src/pkg/client/retry.go lines 33-88) -/

/-- Structure `RetryConfig` (retry.go lines 34-46); backoffs in milliseconds.  Every
profile in the source uses multiplier 2.0, modelled as the natural number 2. -/
structure RetryConfig where
  maxAttempts : Nat
  initialBackoffMs : Nat
  maxBackoffMs : Nat
  backoffMultiplier : Nat
deriving DecidableEq

/-- Constant `DefaultRetryConfig` (retry.go lines 49-56). -/
def DefaultRetryConfig : RetryConfig :=
  { maxAttempts := 3, initialBackoffMs := 1000, maxBackoffMs := 30000,
    backoffMultiplier := 2 }

/-- Function `RetryConfigForErrorClass` (retry.go lines 59-88). -/
def RetryConfigForErrorClass : ErrorClass → RetryConfig
  | .server =>
    { maxAttempts := 3, initialBackoffMs := 1000, maxBackoffMs := 10000,
      backoffMultiplier := 2 }
  | .rateLimit =>
    { maxAttempts := 3, initialBackoffMs := 5000, maxBackoffMs := 60000,
      backoffMultiplier := 2 }
  | .network =>
    { maxAttempts := 3, initialBackoffMs := 2000, maxBackoffMs := 30000,
      backoffMultiplier := 2 }
  | _ => DefaultRetryConfig

/-! ## The retry loop

The repository's current `retryWithBackoff` takes the action and a
per-error classifier callback — `retryWithBackoff(ctx, fn, func(error)
ErrorClass)` is how src/pkg/client/client.go line 223 and every test in
src/pkg/client/retry_test.go call it — but that three-argument body itself is
not among the sources (src/pkg/client/retry.go holds a stale two-argument
predecessor with the class fixed at entry, which none of the in-tree callers
use).  The loop below is therefore modelled from the spec. -/

/-- Termination of one retry-loop run.  `underspecified` is a model artifact:
the supplied list of action outcomes ran out before the loop finished. -/
inductive RetryTermination (ε σ : Type)
  | success (v : σ)
  | failedNoRetry (e : ε)
  | exhausted (attempts : Nat) (last : ε)
  | cancelled
  | underspecified

/-- One backoff wait: the class the most recent error was given, the
profile selected from it, and the pre-jitter backoff (ms) slept. -/
structure WaitRec where
  cls : ErrorClass
  cfg : RetryConfig
  backoffMs : Nat
deriving DecidableEq

structure RetryTrace (ε σ : Type) where
  attempts : Nat
  waits : List WaitRec
  term : RetryTermination ε σ

/-- Modelled from the spec: `retryWithBackoff` §4.5 — the classifier-callback
retry loop whose body is absent from src/ (see section comment).  The action
is deterministic: its k-th invocation returns `outcomes[k]`.  `cancel n` says
whether the caller's cancellation fires during the wait after attempt `n`.
Per spec §4.5: execute; on success stop; on error classify *this* error and
select its profile; non-retryable classes return the error immediately; if
the attempt count has reached the profile's max-attempts, stop exhausted with
that profile's attempt count; otherwise wait (backoff initialized from the
current profile on the first wait, afterwards multiplied and capped by the
current profile), honoring cancellation, and go again. -/
def retryLoopAux {ε σ : Type} (classify : ε → ErrorClass) (cancel : Nat → Bool) :
    List (Except ε σ) → Nat → Option Nat → RetryTrace ε σ
  | [], attempt, _ => ⟨attempt, [], .underspecified⟩
  | .ok v :: _, attempt, _ => ⟨attempt, [], .success v⟩
  | .error e :: rest, attempt, backoff? =>
    let cls := classify e
    let cfg := RetryConfigForErrorClass cls
    if ¬ shouldRetry cls then ⟨attempt, [], .failedNoRetry e⟩
    else if cfg.maxAttempts ≤ attempt then ⟨attempt, [], .exhausted cfg.maxAttempts e⟩
    else
      let backoff := backoff?.getD cfg.initialBackoffMs
      let w : WaitRec := ⟨cls, cfg, backoff⟩
      match ctxAwareWait (cancel attempt) with
      | .interrupted => ⟨attempt, [w], .cancelled⟩
      | .completed =>
        let r := retryLoopAux classify cancel rest (attempt + 1)
          (some (min cfg.maxBackoffMs (backoff * cfg.backoffMultiplier)))
        ⟨r.attempts, w :: r.waits, r.term⟩

/-- Modelled from the spec: the classifier-callback `retryWithBackoff`
entry point (attempt counter starts at 1, backoff uninitialized). -/
def retryWithBackoff {ε σ : Type} (classify : ε → ErrorClass) (cancel : Nat → Bool)
    (outcomes : List (Except ε σ)) : RetryTrace ε σ :=
  retryLoopAux classify cancel outcomes 1 none

/-! Branch equations for `retryLoopAux`. -/

theorem retryLoopAux_ok {ε σ : Type} (classify : ε → ErrorClass)
    (cancel : Nat → Bool) (v : σ) (rest : List (Except ε σ)) (attempt : Nat)
    (b? : Option Nat) :
    retryLoopAux classify cancel (.ok v :: rest) attempt b? =
      ⟨attempt, [], .success v⟩ := by
  simp [retryLoopAux]

theorem retryLoopAux_noRetry {ε σ : Type} (classify : ε → ErrorClass)
    (cancel : Nat → Bool) (e0 : ε) (rest : List (Except ε σ)) (attempt : Nat)
    (b? : Option Nat) (h1 : shouldRetry (classify e0) = false) :
    retryLoopAux classify cancel (.error e0 :: rest) attempt b? =
      ⟨attempt, [], .failedNoRetry e0⟩ := by
  simp [retryLoopAux, h1]

theorem retryLoopAux_exhaust {ε σ : Type} (classify : ε → ErrorClass)
    (cancel : Nat → Bool) (e0 : ε) (rest : List (Except ε σ)) (attempt : Nat)
    (b? : Option Nat) (h1 : shouldRetry (classify e0) = true)
    (h2 : (RetryConfigForErrorClass (classify e0)).maxAttempts ≤ attempt) :
    retryLoopAux classify cancel (.error e0 :: rest) attempt b? =
      ⟨attempt, [],
        .exhausted (RetryConfigForErrorClass (classify e0)).maxAttempts e0⟩ := by
  simp [retryLoopAux, h1, h2]

theorem retryLoopAux_cancelled {ε σ : Type} (classify : ε → ErrorClass)
    (cancel : Nat → Bool) (e0 : ε) (rest : List (Except ε σ)) (attempt : Nat)
    (b? : Option Nat) (h1 : shouldRetry (classify e0) = true)
    (h2 : ¬ (RetryConfigForErrorClass (classify e0)).maxAttempts ≤ attempt)
    (hc : cancel attempt = true) :
    retryLoopAux classify cancel (.error e0 :: rest) attempt b? =
      ⟨attempt,
        [⟨classify e0, RetryConfigForErrorClass (classify e0),
          b?.getD (RetryConfigForErrorClass (classify e0)).initialBackoffMs⟩],
        .cancelled⟩ := by
  simp [retryLoopAux, h1, h2, ctxAwareWait, hc]

theorem retryLoopAux_step {ε σ : Type} (classify : ε → ErrorClass)
    (cancel : Nat → Bool) (e0 : ε) (rest : List (Except ε σ)) (attempt : Nat)
    (b? : Option Nat) (h1 : shouldRetry (classify e0) = true)
    (h2 : ¬ (RetryConfigForErrorClass (classify e0)).maxAttempts ≤ attempt)
    (hc : cancel attempt = false) :
    retryLoopAux classify cancel (.error e0 :: rest) attempt b? =
      { attempts := (retryLoopAux classify cancel rest (attempt + 1)
          (some (min (RetryConfigForErrorClass (classify e0)).maxBackoffMs
            ((b?.getD (RetryConfigForErrorClass (classify e0)).initialBackoffMs)
              * (RetryConfigForErrorClass (classify e0)).backoffMultiplier)))).attempts
        waits := ⟨classify e0, RetryConfigForErrorClass (classify e0),
          b?.getD (RetryConfigForErrorClass (classify e0)).initialBackoffMs⟩ ::
          (retryLoopAux classify cancel rest (attempt + 1)
            (some (min (RetryConfigForErrorClass (classify e0)).maxBackoffMs
              ((b?.getD (RetryConfigForErrorClass (classify e0)).initialBackoffMs)
                * (RetryConfigForErrorClass (classify e0)).backoffMultiplier)))).waits
        term := (retryLoopAux classify cancel rest (attempt + 1)
          (some (min (RetryConfigForErrorClass (classify e0)).maxBackoffMs
            ((b?.getD (RetryConfigForErrorClass (classify e0)).initialBackoffMs)
              * (RetryConfigForErrorClass (classify e0)).backoffMultiplier)))).term } := by
  simp [retryLoopAux, h1, h2, ctxAwareWait, hc]

/-- Every wait of a `retryLoopAux` run is taken under the profile selected for
the error of the corresponding attempt, and an exhaustion verdict carries the
max-attempts of the profile of the last error. -/
theorem retryLoopAux_profile_spec {ε σ : Type} (classify : ε → ErrorClass)
    (cancel : Nat → Bool) (outs : List (Except ε σ)) :
    ∀ (attempt : Nat) (b? : Option Nat),
      (∀ (i : Nat) (w : WaitRec),
        (retryLoopAux classify cancel outs attempt b?).waits[i]? = some w →
        ∃ e : ε, outs[i]? = some (Except.error (α := σ) e)
          ∧ w.cls = classify e
          ∧ w.cfg = RetryConfigForErrorClass (classify e))
      ∧ (∀ n e,
          (retryLoopAux classify cancel outs attempt b?).term = .exhausted n e →
          n = (RetryConfigForErrorClass (classify e)).maxAttempts) := by
  induction outs with
  | nil =>
    intro attempt b?
    refine ⟨fun (i : Nat) w h => ?_, fun n e h => ?_⟩
    · simp [retryLoopAux] at h
    · simp [retryLoopAux] at h
  | cons o rest ih =>
    intro attempt b?
    cases o with
    | ok v =>
      refine ⟨fun (i : Nat) w h => ?_, fun n e h => ?_⟩
      · rw [retryLoopAux_ok] at h
        simp at h
      · rw [retryLoopAux_ok] at h
        simp at h
    | error e0 =>
      by_cases h1 : shouldRetry (classify e0) = true
      · by_cases h2 : (RetryConfigForErrorClass (classify e0)).maxAttempts ≤ attempt
        · refine ⟨fun (i : Nat) w h => ?_, fun n e h => ?_⟩
          · rw [retryLoopAux_exhaust classify cancel e0 rest attempt b? h1 h2] at h
            simp at h
          · rw [retryLoopAux_exhaust classify cancel e0 rest attempt b? h1 h2] at h
            simp at h
            obtain ⟨hn, he⟩ := h
            subst he
            exact hn.symm
        · cases hc : cancel attempt
          · refine ⟨fun (i : Nat) w h => ?_, fun n e h => ?_⟩
            · rw [retryLoopAux_step classify cancel e0 rest attempt b? h1 h2 hc] at h
              cases i with
              | zero =>
                simp at h
                exact ⟨e0, by simp, by rw [← h], by rw [← h]⟩
              | succ j =>
                simp only [List.getElem?_cons_succ] at h
                obtain ⟨e, he, hcls, hcfg⟩ := (ih (attempt + 1) _).1 j w h
                exact ⟨e, by simpa using he, hcls, hcfg⟩
            · rw [retryLoopAux_step classify cancel e0 rest attempt b? h1 h2 hc] at h
              exact (ih (attempt + 1) _).2 n e h
          · refine ⟨fun (i : Nat) w h => ?_, fun n e h => ?_⟩
            · rw [retryLoopAux_cancelled classify cancel e0 rest attempt b? h1 h2 hc] at h
              cases i with
              | zero =>
                simp at h
                exact ⟨e0, by simp, by rw [← h], by rw [← h]⟩
              | succ j => simp at h
            · rw [retryLoopAux_cancelled classify cancel e0 rest attempt b? h1 h2 hc] at h
              simp at h
      · have h1f : shouldRetry (classify e0) = false := by
          cases hsr : shouldRetry (classify e0)
          · rfl
          · exact absurd hsr h1
        refine ⟨fun (i : Nat) w h => ?_, fun n e h => ?_⟩
        · rw [retryLoopAux_noRetry classify cancel e0 rest attempt b? h1f] at h
          simp at h
        · rw [retryLoopAux_noRetry classify cancel e0 rest attempt b? h1f] at h
          simp at h

/-- C4: in the retry loop the classifier is consulted after every error and
the retry profile in effect for each backoff wait — and for the exhaustion
verdict — is the one selected for the most recent error's class: the `i`-th
wait of any run is taken under `RetryConfigForErrorClass` of the class the
classifier assigns to the `i`-th error, not under the profile chosen at loop
entry, and an exhausted run reports the max-attempts of the last error's
profile. -/
theorem retry_profile_rebound_per_error {ε σ : Type} (classify : ε → ErrorClass)
    (cancel : Nat → Bool) (outs : List (Except ε σ)) :
    (∀ (i : Nat) (w : WaitRec),
      (retryWithBackoff classify cancel outs).waits[i]? = some w →
      ∃ e : ε, outs[i]? = some (Except.error (α := σ) e)
        ∧ w.cls = classify e
        ∧ w.cfg = RetryConfigForErrorClass (classify e))
    ∧ (∀ n e, (retryWithBackoff classify cancel outs).term = .exhausted n e →
        n = (RetryConfigForErrorClass (classify e)).maxAttempts) :=
  retryLoopAux_profile_spec classify cancel outs 1 none

/-- C4 witness: a server error followed by a network error, then success — the
first wait runs under the server profile, the second under the network
profile (the class, and hence the profile, is rebound mid-loop). -/
theorem retry_profile_rebound_per_error_witness :
    ((retryWithBackoff (fun c : ErrorClass => c) (fun _ => false)
      [Except.error .server, Except.error .network, Except.ok ()]).waits.map
        WaitRec.cfg)
      = [RetryConfigForErrorClass .server, RetryConfigForErrorClass .network] := by
  obtain ⟨e0, he0, hcls0, hcfg0⟩ :=
    (retry_profile_rebound_per_error (fun c : ErrorClass => c) (fun _ => false)
      [Except.error .server, Except.error .network, Except.ok ()]).1 0
      ⟨.server, RetryConfigForErrorClass .server, 1000⟩ (by decide)
  obtain ⟨e1, he1, hcls1, hcfg1⟩ :=
    (retry_profile_rebound_per_error (fun c : ErrorClass => c) (fun _ => false)
      [Except.error .server, Except.error .network, Except.ok ()]).1 1
      ⟨.network, RetryConfigForErrorClass .network, 2000⟩ (by decide)
  decide

/-! ## Expires parsing and entry construction (src/pkg/cache/http.go) -/

/-- The state of the `Expires` response header as `parseExpires` distinguishes
it: absent, present but rejected by `http.ParseTime`, or parsed to an
instant. -/
inductive ExpiresHeader
  | absent
  | malformed
  | valid (t : Int)
deriving DecidableEq

/-- Constant `DefaultTTL` (http.go line 13): 5 minutes, in seconds. -/
def DefaultTTL : Int := 300

/-- Function `parseExpires` (http.go lines 57-77): absent or unparseable header →
`now + DefaultTTL`; parsed instant already in the past → `now` (minimal TTL);
otherwise the parsed instant. -/
def parseExpires (now : Int) : ExpiresHeader → Int
  | .absent => now + DefaultTTL
  | .malformed => now + DefaultTTL
  | .valid t => if t < now then now else t

/-- An upstream HTTP response as the pipeline consumes it. -/
structure UpResp where
  status : Nat
  remainHdr : String
  resetHdr : String
  expiresHdr : ExpiresHeader
  etag : String
  lastModified : Option Int
  headers : List (String × String)
  body : String
deriving DecidableEq

/-- Function `cache.ResponseToEntry` (http.go lines 19-53): body bytes, validators and
a `parseExpires` expiration over a `CachedAt := time.Now()` stamp
(`lastModified = 0` models Go's zero time when the header is absent). -/
def responseToEntry (now : Int) (r : UpResp) : CacheEntry :=
  { data := r.body
    etag := r.etag
    expires := parseExpires now r.expiresHdr
    lastModified := r.lastModified.getD 0
    statusCode := r.status
    headers := r.headers
    cachedAt := now }

/-! ## The request pipeline (Client.Do, src/pkg/client/client.go lines 161-330) -/

/-- The error values the per-attempt closure hands the retry loop: a transport
failure, or a retryable HTTP error (`ESIError` with status and class). -/
inductive DoAttemptErr
  | netErr
  | esiErr (status : Nat) (cls : ErrorClass)
deriving DecidableEq

/-- The classifier callback `Client.Do` passes to the retry loop
(client.go lines 279-282): it returns the captured `errClass` variable, which
holds the class assigned when the most recent error was built. -/
def doErrClass : DoAttemptErr → ErrorClass
  | .netErr => .network
  | .esiErr _ cls => cls

/-- What one upstream attempt produced. -/
inductive AttemptOutcome
  | transportError
  | response (r : UpResp)
deriving DecidableEq

/-- The per-attempt closure of `Client.Do` (client.go lines 223-278).  On a
transport error: class network, propagate.  On a response: feed the rate-limit
headers to `UpdateFromHeaders` (result logged and dropped, lines 239-241,
with no effect on control flow); 304 is success; status ≥ 400 is classified
and propagated as an `ESIError` only when its class is retryable — a
non-retryable (client) error returns success with the response intact;
anything else is success. -/
def doAttempt : AttemptOutcome → Except DoAttemptErr UpResp
  | .transportError => .error .netErr
  | .response r =>
    if r.status = 304 then .ok r
    else if 400 ≤ r.status then
      if shouldRetry (classifyError (some r.status) false) then
        .error (.esiErr r.status (classifyError (some r.status) false))
      else .ok r
    else .ok r

inductive DoError
  | gateReadError (e : GetStateErr)
  | rateLimitCritical
  | retryFailed (e : DoAttemptErr)
  | retryExhausted (attempts : Nat) (e : DoAttemptErr)
  | contextCancelled
deriving DecidableEq

/-- How `Client.Do` ends: an upstream response handed to the caller, a
response synthesized from the cached entry (304 path), a nil-entry
dereference on the 304 path (`cacheEntryToResponse(nil)`), a terminal error,
or a model artifact when the supplied outcome list ran out. -/
inductive DoOutcome
  | ok (r : UpResp)
  | okSynth (e : CacheEntry)
  | panicNilEntry
  | err (e : DoError)
  | underspecified
deriving DecidableEq

structure DoTrace where
  attempts : Nat
  waits : List WaitRec
  throttled : Bool
  cacheWrite : Option CacheEntry
  outcome : DoOutcome
deriving DecidableEq

/-- Function `Client.Do` (client.go lines 161-330).  Steps, in source order: gate
check via `GetState`/`ShouldAllowRequest` (lines 174-185); cache lookup whose
miss/error is non-fatal (lines 193-196; conditional headers, lines 199-206,
only shape the upstream exchange, which is already fixed by `outs`); the
retry-wrapped send (lines 223-282) with the per-error classifier; then 304
handling — `UpdateTTL` on the store (effect on the store not surfaced in the
trace) and a response synthesized from `cachedEntry` *without a nil check*
(lines 293-310), modelled from the spec §4.6 as a field read of the entry,
hence `panicNilEntry` when the lookup produced no entry; then the 200 path
writing the entry when `entry.TTL() > 0` (lines 313-327); otherwise the
response is returned as-is. -/
def clientDo (now : Int) (rl : RLStore) (cancelSleep : Bool) (cancel : Nat → Bool)
    (cs : CStore) (key : CacheKey) (outs : List AttemptOutcome) : DoTrace :=
  match getState now rl with
  | .error e => ⟨0, [], false, none, .err (.gateReadError e)⟩
  | .ok st =>
    match shouldAllowRequest st cancelSleep with
    | .blocked => ⟨0, [], false, none, .err .rateLimitCritical⟩
    | .cancelledErr => ⟨0, [], false, none, .err .contextCancelled⟩
    | .allowed throttled =>
      let cachedEntry : Option CacheEntry := (managerGet now cs key).2.toOption
      let tr := retryWithBackoff doErrClass cancel (outs.map doAttempt)
      match tr.term with
      | .underspecified => ⟨tr.attempts, tr.waits, throttled, none, .underspecified⟩
      | .failedNoRetry e => ⟨tr.attempts, tr.waits, throttled, none, .err (.retryFailed e)⟩
      | .exhausted n e =>
        ⟨tr.attempts, tr.waits, throttled, none, .err (.retryExhausted n e)⟩
      | .cancelled => ⟨tr.attempts, tr.waits, throttled, none, .err .contextCancelled⟩
      | .success r =>
        if r.status = 304 then
          match cachedEntry with
          | some e => ⟨tr.attempts, tr.waits, throttled, none, .okSynth e⟩
          | none => ⟨tr.attempts, tr.waits, throttled, none, .panicNilEntry⟩
        else if r.status = 200 then
          let entry := responseToEntry now r
          if entry.ttl now > 0 then
            ⟨tr.attempts, tr.waits, throttled, some entry, .ok r⟩
          else ⟨tr.attempts, tr.waits, throttled, none, .ok r⟩
        else ⟨tr.attempts, tr.waits, throttled, none, .ok r⟩

/-- When the gate does not block, `ShouldAllowRequest` allows, throttled
exactly when the warning band applies. -/
theorem shouldAllowRequest_allowed (s : RateLimitState) (c : Bool)
    (h : s.NeedsCriticalBlock = false) :
    shouldAllowRequest s c = .allowed s.NeedsThrottling := by
  unfold shouldAllowRequest timeSleep
  rw [h]
  by_cases ht : s.NeedsThrottling = true
  · simp [ht]
  · simp only [Bool.not_eq_true] at ht
    simp [ht]

/-! ## Theorems: C2 (4xx — one attempt, no retry, response returned) -/

/-- C2: for every call whose (first) upstream response has a status in
[400, 500), exactly one upstream attempt is made, the error is classified
client, no backoff wait occurs, and `Do` returns that response — not an
error — with its status intact. -/
theorem do_4xx_single_attempt (now : Int) (rl : RLStore) (cSleep : Bool)
    (cancel : Nat → Bool) (cs : CStore) (key : CacheKey) (r : UpResp)
    (rest : List AttemptOutcome) (st : RateLimitState)
    (hst : getState now rl = .ok st)
    (hallow : st.NeedsCriticalBlock = false)
    (h4 : 400 ≤ r.status) (h5 : r.status < 500) :
    (clientDo now rl cSleep cancel cs key (.response r :: rest)).attempts = 1
    ∧ (clientDo now rl cSleep cancel cs key (.response r :: rest)).waits = []
    ∧ (clientDo now rl cSleep cancel cs key (.response r :: rest)).outcome = .ok r
    ∧ classifyError (some r.status) false = .client := by
  have h304 : ¬ r.status = 304 := by omega
  have h520 : ¬ r.status = 520 := by omega
  have h200 : ¬ r.status = 200 := by omega
  have hcls : classifyError (some r.status) false = .client := by
    simp [classifyError, h520, h4, h5]
  have hda : doAttempt (.response r) = .ok r := by
    simp [doAttempt, h304, h4, hcls, shouldRetry]
  refine ⟨?_, ?_, ?_, hcls⟩ <;>
  · simp only [clientDo, hst, shouldAllowRequest_allowed st cSleep hallow,
      List.map_cons, hda, retryWithBackoff, retryLoopAux_ok]
    simp [h304, h200]

/-- C2 witness: a 404 response on a healthy (empty) rate-limit store: one
attempt, no waits, outcome is the 404 response itself, class client. -/
theorem do_4xx_single_attempt_witness :
    (clientDo 0 ⟨none, none, none⟩ false (fun _ => false) (fun _ => none)
      ⟨"a", [], [], 0⟩
      [.response ⟨404, "", "", .absent, "", none, [], "not found"⟩]).attempts = 1
    ∧ (clientDo 0 ⟨none, none, none⟩ false (fun _ => false) (fun _ => none)
        ⟨"a", [], [], 0⟩
        [.response ⟨404, "", "", .absent, "", none, [], "not found"⟩]).waits = []
    ∧ (clientDo 0 ⟨none, none, none⟩ false (fun _ => false) (fun _ => none)
        ⟨"a", [], [], 0⟩
        [.response ⟨404, "", "", .absent, "", none, [], "not found"⟩]).outcome =
        .ok ⟨404, "", "", .absent, "", none, [], "not found"⟩
    ∧ classifyError (some 404) false = .client :=
  do_4xx_single_attempt 0 ⟨none, none, none⟩ false (fun _ => false) (fun _ => none)
    ⟨"a", [], [], 0⟩ ⟨404, "", "", .absent, "", none, [], "not found"⟩ []
    (defaultHealthyState 0) rfl (by decide) (by decide) (by decide)

/-! ## Theorems: C10 (304 after a cache miss dereferences a nil entry) -/

/-- C10: when the cache lookup preceding the upstream exchange returned no
entry (miss or error) and the upstream replies 304 — possible when the
caller's pre-built request already carries conditional headers — `Do`'s 304
branch still synthesizes its return value from the nil cached entry instead
of returning an error: the success path dereferences a nil entry. -/
theorem do_304_after_miss_derefs_nil_entry (now : Int) (rl : RLStore)
    (cSleep : Bool) (cancel : Nat → Bool) (cs : CStore) (key : CacheKey)
    (r : UpResp) (rest : List AttemptOutcome) (st : RateLimitState)
    (ce : CacheErr)
    (hst : getState now rl = .ok st)
    (hallow : st.NeedsCriticalBlock = false)
    (hmiss : (managerGet now cs key).2 = .error ce)
    (h304 : r.status = 304) :
    (clientDo now rl cSleep cancel cs key (.response r :: rest)).outcome =
      .panicNilEntry := by
  have hda : doAttempt (.response r) = .ok r := by
    simp [doAttempt, h304]
  simp only [clientDo, hst, shouldAllowRequest_allowed st cSleep hallow,
    List.map_cons, hda, retryWithBackoff, retryLoopAux_ok]
  simp [h304, hmiss, Except.toOption]

/-- C10 witness: empty cache, healthy gate, upstream 304: the pipeline ends in
the nil-entry dereference. -/
theorem do_304_after_miss_derefs_nil_entry_witness :
    (clientDo 0 ⟨none, none, none⟩ false (fun _ => false) (fun _ => none)
      ⟨"a", [], [], 0⟩
      [.response ⟨304, "", "", .absent, "", none, [], ""⟩]).outcome =
      .panicNilEntry :=
  do_304_after_miss_derefs_nil_entry 0 ⟨none, none, none⟩ false (fun _ => false)
    (fun _ => none) ⟨"a", [], [], 0⟩ ⟨304, "", "", .absent, "", none, [], ""⟩ []
    (defaultHealthyState 0) .cacheMiss rfl (by decide) rfl rfl

/-! ## Theorems: C9 (expires fallback; past expires never cached) -/

/-- C9: for every 200 response turned into a cache entry, an absent or
unparseable `Expires` header yields an expiration of exactly 5 minutes past
the cached-at instant (so the expiration is always populated), and an
`Expires` that parses to an instant already in the past yields TTL ≤ 0 and
the entry is not written to the cache by the pipeline. -/
theorem expires_fallback_and_past_not_cached (now : Int) (r : UpResp) :
    ((r.expiresHdr = .absent ∨ r.expiresHdr = .malformed) →
      (responseToEntry now r).expires = (responseToEntry now r).cachedAt + DefaultTTL)
    ∧ (∀ t, r.expiresHdr = .valid t → t < now →
        (responseToEntry now r).ttl now ≤ 0
        ∧ ∀ (rl : RLStore) (cSleep : Bool) (cancel : Nat → Bool) (cs : CStore)
            (key : CacheKey) (rest : List AttemptOutcome) (st : RateLimitState),
            getState now rl = .ok st → st.NeedsCriticalBlock = false →
            r.status = 200 →
            (clientDo now rl cSleep cancel cs key (.response r :: rest)).cacheWrite
              = none) := by
  constructor
  · intro h
    rcases h with h | h <;> simp [responseToEntry, parseExpires, h]
  · intro t ht hpast
    have hexp : parseExpires now r.expiresHdr = now := by
      simp [parseExpires, ht, hpast]
    have httl : (responseToEntry now r).ttl now ≤ 0 := by
      simp [responseToEntry, CacheEntry.ttl, hexp]
    refine ⟨httl, fun rl cSleep cancel cs key rest st hst hallow h200 => ?_⟩
    have h304 : ¬ r.status = 304 := by omega
    have hda : doAttempt (.response r) = .ok r := by
      simp [doAttempt, h304, h200]
    have hnotpos : ¬ (responseToEntry now r).ttl now > 0 := by omega
    simp only [clientDo, hst, shouldAllowRequest_allowed st cSleep hallow,
      List.map_cons, hda, retryWithBackoff, retryLoopAux_ok]
    simp [h304, h200, hnotpos]

/-- C9 witness: an absent `Expires` gives cached-at + 300s; an `Expires`
parsed to instant 5 with `now = 10` gives TTL 0 and no cache write. -/
theorem expires_fallback_and_past_not_cached_witness :
    (responseToEntry 0 ⟨200, "", "", .absent, "", none, [], "b"⟩).expires =
      (responseToEntry 0 ⟨200, "", "", .absent, "", none, [], "b"⟩).cachedAt + DefaultTTL
    ∧ (responseToEntry 10 ⟨200, "", "", .valid 5, "", none, [], "b"⟩).ttl 10 ≤ 0
    ∧ (clientDo 10 ⟨none, none, none⟩ false (fun _ => false) (fun _ => none)
        ⟨"a", [], [], 0⟩
        [.response ⟨200, "", "", .valid 5, "", none, [], "b"⟩]).cacheWrite = none := by
  have h1 := (expires_fallback_and_past_not_cached 0
    ⟨200, "", "", .absent, "", none, [], "b"⟩).1 (Or.inl rfl)
  have h2 := (expires_fallback_and_past_not_cached 10
    ⟨200, "", "", .valid 5, "", none, [], "b"⟩).2 5 rfl (by decide)
  exact ⟨h1, h2.1, h2.2 ⟨none, none, none⟩ false (fun _ => false) (fun _ => none)
    ⟨"a", [], [], 0⟩ [] (defaultHealthyState 10) rfl (by decide) rfl⟩
